import Mathlib

/-!
Verification of the job/step orchestration engine of this repository
(matrix expansion, strategy option resolution, step lifecycle, environment
merge, shell script synthesis, container exit-status boundary).

Each definition is a shallow embedding of the corresponding Go function,
keeping the source's names and control flow.  External collaborators
(expression evaluator, container runtime, Go standard library helpers)
are passed in as function parameters or modelled explicitly where their
behaviour is documented and fixed.
-/

/-! ## Matrix values and bindings (pkg/model, `part_003`)

Go's decoded matrix values have type `interface{}` compared with
`reflect.DeepEqual`; we embed them as a small inductive with decidable
equality.  A decoded `map[string]interface{}` becomes an association
list `Binding`. -/

inductive MVal where
  | str (s : String)
  | num (n : Int)
  | boolean (b : Bool)
deriving DecidableEq

/-- A decoded `map[string]interface{}`: one partial variable binding. -/
abbrev Binding := List (String × MVal)

/-- Go map assignment `m[k] = v` on an association list: overwrite the
first entry with key `k`, else append. -/
def setAssoc {α : Type} (l : List (String × α)) (k : String) (v : α) : List (String × α) :=
  match l with
  | [] => [(k, v)]
  | (k', v') :: rest => if k' = k then (k', v) :: rest else (k', v') :: setAssoc rest k v

/-- `include` entries as decoded from YAML: the type switch in
`GetMatrixes` distinguishes a single map (`case interface\x7b\x7d`) from a
nested list of maps (`case []interface\x7b\x7d`). -/
inductive IncludeEntry where
  | entry (b : Binding)
  | list (bs : List Binding)
deriving DecidableEq

/-- The decoded `strategy.matrix` mapping: its axis keys (every key other
than `include`/`exclude`) and, when present, the values stored at the
`include` and `exclude` keys. -/
structure RawMatrix where
  axes : List (String × List MVal)
  includes : Option (List IncludeEntry)
  excludes : Option (List Binding)
deriving DecidableEq

/-- The `Strategy` of a job (pkg/model): the raw `fail-fast` and
`max-parallel` literals and the decoded matrix (`none` when `RawMatrix`
is not a YAML mapping node, mirroring `Job.Matrix()`). -/
structure Strategy where
  failFastString : String
  maxParallelString : String
  matrix : Option RawMatrix
deriving DecidableEq

/-- `k` is a key of the axis part of the matrix map. -/
def keyInAxes (axes : List (String × List MVal)) (k : String) : Bool :=
  axes.any (fun a => a.1 = k)

/-- Membership test `_, ok := m[k]` performed while processing `include`
entries: at that point the map still holds the `include` and `exclude`
keys themselves (they are deleted only afterwards). -/
def keyInMatrixMap (m : RawMatrix) (k : String) : Bool :=
  keyInAxes m.axes k || (k = "include" && m.includes.isSome) || (k = "exclude" && m.excludes.isSome)

/-- Membership test `_, ok := m[k]` performed while processing `exclude`
entries: `delete(m, "include")` has already run, so only the axis keys
and the `exclude` key itself remain. -/
def keyInMatrixMapNoInclude (m : RawMatrix) (k : String) : Bool :=
  keyInAxes m.axes k || (k = "exclude" && m.excludes.isSome)

/-- An include binding is kept iff some of its keys occurs in the matrix
map (the `break` after the first hit appends the binding once). -/
def includeKept (m : RawMatrix) (b : Binding) : Bool :=
  b.any (fun kv => keyInMatrixMap m kv.1)

/-- The include-collection loop of `GetMatrixes` (part_003 lines 239-260):
for each element of `m["include"]`, a nested list appends each contained
map that has a key in the matrix map; a plain map is appended when it
has such a key, and silently skipped otherwise. -/
def collectIncludes (m : RawMatrix) : List Binding :=
  (m.includes.getD []).foldl
    (fun acc e =>
      match e with
      | .list bs => acc ++ bs.filter (includeKept m)
      | .entry b => if includeKept m b then acc ++ [b] else acc)
    []

/-- The inner loop over the keys of one `exclude` entry `e` (part_003
lines 266-273): the entry is appended once per key that occurs in the
matrix map, and the run is aborted with `log.Fatalf` when a key does
not.  The fatal abort is embedded as `Except.error` with the logged
message. -/
def excludeEntryLoop (m : RawMatrix) (e : Binding) :
    List (String × MVal) → List Binding → Except String (List Binding)
  | [], acc => Except.ok acc
  | kv :: rest, acc =>
    if keyInMatrixMapNoInclude m kv.1 then excludeEntryLoop m e rest (acc ++ [e])
    else
      Except.error ("The workflow is not valid. Matrix exclude key \x27" ++ kv.1 ++
        "\x27 does not match any key within the matrix")

/-- The outer loop over `m["exclude"]` (part_003 lines 264-274). -/
def excludesLoop (m : RawMatrix) : List Binding → List Binding → Except String (List Binding)
  | [], acc => Except.ok acc
  | e :: rest, acc =>
    match excludeEntryLoop m e e acc with
    | Except.error msg => Except.error msg
    | Except.ok acc' => excludesLoop m rest acc'

/-- The exclude-collection of `GetMatrixes` (part_003 lines 263-274). -/
def collectExcludes (m : RawMatrix) : Except String (List Binding) :=
  excludesLoop m (m.excludes.getD []) []

/-- Modelled from the spec: `common.CartesianProduct` is not under `src/`;
the spec says the expansion computes "the cartesian product over the
remaining axes" with "exactly the product" of entries.  Each result
binding assigns every axis one of its values. -/
def cartesianProduct : List (String × List MVal) → List Binding
  | [] => [[]]
  | (k, vs) :: rest => vs.flatMap (fun v => (cartesianProduct rest).map (fun b => (k, v) :: b))

/-- `commonKeysMatch` (part_003 lines 301-308): true unless some key of
`a` is present in `b` with a `DeepEqual`-different value. -/
def commonKeysMatch (a : Binding) (b : Binding) : Bool :=
  a.all (fun kv =>
    match b.lookup kv.1 with
    | some bv => decide (kv.2 = bv)
    | none => true)

/-- `GetMatrixes` (part_003 lines 231-299).  A `nil` strategy or a
non-mapping matrix yields one empty binding.  Otherwise: collect the
kept includes, collect the excludes (fatal on an unknown key), filter
the cartesian product by the excludes (the labelled `MATRIX` loop) and
append the kept includes.  The calls to `GetFailFast`/`GetMaxParallel`
at the top of the source function only cache those options on the
strategy value and do not affect the returned list. -/
def GetMatrixes (strategy : Option Strategy) : Except String (List Binding) :=
  match strategy with
  | none => Except.ok [[]]
  | some s =>
    match s.matrix with
    | none => Except.ok [[]]
    | some m =>
      let includes := collectIncludes m
      match collectExcludes m with
      | Except.error e => Except.error e
      | Except.ok excludes =>
        let matrixProduct := cartesianProduct m.axes
        let filtered := matrixProduct.filter (fun t => !(excludes.any (fun e => commonKeysMatch t e)))
        Except.ok (filtered ++ includes)

/-! ## Strategy option resolution (pkg/model, `part_003` lines 109-137)

`strconv.Atoi` and `strconv.ParseBool` are Go standard library
collaborators; they are embedded below with their documented behaviour:
both return a value *and* an error, and the value accompanying an error
is `0`/`false` for syntax errors (the clamped bound for `Atoi` range
errors).  The Go `if v, err = parse(s); err != nil` pattern keeps that
accompanying value. -/

/-- Go `strconv.Atoi` (= `ParseInt(s, 10, 0)` on a 64-bit platform):
optional sign, then one or more decimal digits; syntax errors return
`(0, false)`, out-of-range values return the clamped 64-bit bound with
`false`, and success returns `(value, true)`. -/
def goAtoi (s : String) : Int × Bool :=
  let p : Int × List Char :=
    match s.data with
    | '+' :: rest => (1, rest)
    | '-' :: rest => (-1, rest)
    | l => (1, l)
  let digits := p.2
  if digits.isEmpty || !(digits.all Char.isDigit) then (0, false)
  else
    let mag : Nat := digits.foldl (fun a c => a * 10 + (c.toNat - '0'.toNat)) 0
    let v : Int := p.1 * mag
    if v < -(2 ^ 63) then (-(2 ^ 63), false)
    else if v > 2 ^ 63 - 1 then (2 ^ 63 - 1, false)
    else (v, true)

/-- Go `strconv.ParseBool`: accepts exactly twelve literals; every other
string is a syntax error returning `(false, false)`. -/
def goParseBool (s : String) : Bool × Bool :=
  if s = "1" || s = "t" || s = "T" || s = "TRUE" || s = "true" || s = "True" then (true, true)
  else if s = "0" || s = "f" || s = "F" || s = "FALSE" || s = "false" || s = "False" then (false, true)
  else (false, false)

/-- `Strategy.GetMaxParallel` (part_003 lines 109-123): starts from the
default 4; a non-empty literal is parsed with `strconv.Atoi` and the
assignment `maxParallel, err = strconv.Atoi(...)` keeps Atoi's returned
value even when `err != nil` (the error is only logged, never fatal). -/
def GetMaxParallel (s : Strategy) : Int :=
  let maxParallel : Int := 4
  if s.maxParallelString ≠ "" then (goAtoi s.maxParallelString).1 else maxParallel

/-- `Strategy.GetFailFast` (part_003 lines 126-137): starts from the
default `true`; a non-empty literal is parsed with `strconv.ParseBool`
and the assignment keeps ParseBool's returned value even when
`err != nil` (the error is only logged, never fatal). -/
def GetFailFast (s : Strategy) : Bool :=
  let failFast := true
  if s.failFastString ≠ "" then (goParseBool s.failFastString).1 else failFast

/-! ## Step lifecycle (pkg/runner/step.go)

The expression evaluator is an external collaborator consumed through
`EvalBool(expr, defaultStatusCheck)`; it is passed in as a function
`evalBool`.  The step body executor, and the four side-channel file
processing passes (`processRunnerEnvFileCommand` on the env/state/output
files and `UpdateExtraPath` on the path file, whose outcomes depend on
file contents read from the container), are likewise abstracted by their
results: `none` for a nil error, `some msg` for an error. -/

inductive Stage where
  | pre
  | main
  | post
deriving DecidableEq

/-- `exprparser.DefaultStatusCheck` values passed to `EvalBool`. -/
inductive DefaultStatusCheck where
  | noCheck
  | always
  | success
deriving DecidableEq

/-- `model.StepStatus` values used by `runStepExecutor`
(`StepStatusSuccess`, `StepStatusFailure`, `StepStatusSkipped`). -/
inductive StepStatus where
  | success
  | failure
  | skipped
deriving DecidableEq

/-- `model.StepResult`: outcome, conclusion, and outputs map. -/
structure StepResult where
  outcome : StepStatus
  conclusion : StepStatus
  outputs : List (String × String)
deriving DecidableEq

/-- `isStepEnabled` (step.go lines 227-243): post stages default to
`always`, pre/main to `success`; evaluator errors are wrapped in the
if-expression message. -/
def isStepEnabled (evalBool : String → DefaultStatusCheck → Except String Bool)
    (expr : String) (stage : Stage) : Except String Bool :=
  let defaultStatusCheck : DefaultStatusCheck :=
    if stage = Stage.post then DefaultStatusCheck.always else DefaultStatusCheck.success
  match evalBool expr defaultStatusCheck with
  | Except.error e =>
      Except.error ("  ❌  Error in if-expression: \"if: " ++ expr ++ "\" (" ++ e ++ ")")
  | Except.ok b => Except.ok b

/-- Go `unicode.IsSpace` on the characters relevant to Latin-1 text:
the ASCII white space runes plus NEL and NBSP (the standard library
additionally covers the Unicode `White_Space` property, which this
repository's trimming only consults through `strings.TrimSpace`). -/
def goIsSpace (c : Char) : Bool :=
  c = ' ' || c = '\t' || c = '\n' || c = Char.ofNat 11 || c = Char.ofNat 12 || c = '\r' ||
    c = Char.ofNat 133 || c = Char.ofNat 160

/-- Go `strings.TrimSpace`: drop leading and trailing white space. -/
def goTrimSpace (s : String) : String :=
  String.mk (((s.data.dropWhile goIsSpace).reverse.dropWhile goIsSpace).reverse)

/-- `isContinueOnError` (step.go lines 245-259): an empty or
whitespace-only expression returns `false` without consulting the
evaluator; otherwise the evaluator runs with no default status check and
its errors are wrapped in the continue-on-error message. -/
def isContinueOnError (evalBool : String → DefaultStatusCheck → Except String Bool)
    (expr : String) : Except String Bool :=
  if (goTrimSpace expr).length = 0 then Except.ok false
  else
    match evalBool expr DefaultStatusCheck.noCheck with
    | Except.error e =>
        Except.error ("  ❌  Error in continue-on-error-expression: \"continue-on-error: " ++
          expr ++ "\" (" ++ e ++ ")")
    | Except.ok b => Except.ok b

/-- The five fixed relative side-channel paths (step.go lines 105-118). -/
def outputFileCommand : String := "workflow/outputcmd.txt"

def stateFileCommand : String := "workflow/statecmd.txt"

def pathFileCommand : String := "workflow/pathcmd.txt"

def envFileCommand : String := "workflow/envs.txt"

def summaryFileCommand : String := "workflow/SUMMARY.md"

/-- The per-invocation inputs of `runStepExecutor` that come from the
step model and from external collaborators: the step id, the resolved
if- and continue-on-error expressions, the body executor's result, and
the results of the four side-channel processing passes (attempted in the
fixed order env, state, output, path). -/
structure StepInputs where
  stepID : String
  ifExpr : String
  rawContinueOnError : String
  bodyResult : Option String
  envProc : Option String
  stateProc : Option String
  outputProc : Option String
  pathProc : Option String

/-- What one `(step, stage)` invocation of `runStepExecutor` produces:
the Go error return (`none` = nil), the updated `StepResults` map of the
run context, and the side-channel files whose processing was attempted,
in order. -/
structure StepExecOutcome where
  result : Option String
  stepResults : List (String × StepResult)
  processedFiles : List String
deriving DecidableEq

/-- `runStepExecutor` (step.go lines 59-183).  The source installs a
fresh `StepResult` pointer into `rc.StepResults` under the step id when
(and only when) the stage is main, then mutates it through the pointer;
the embedding equivalently installs the final record at each exit.
Control flow, in source order: `setupEnv` (which always returns nil),
`isStepEnabled` (failure marks outcome = conclusion = failure and
returns the wrapped error), the skip branch (marks skipped, returns
nil), file-command preparation (its `Copy` error is discarded with `_`),
the body executor, the continue-on-error policy on a body error, and the
four side-channel processing passes, each returning its error
immediately; only when all four succeed is the saved original error
`orgerr` returned. -/
def runStepExecutor (evalBool : String → DefaultStatusCheck → Except String Bool)
    (stage : Stage) (inp : StepInputs)
    (stepResults0 : List (String × StepResult)) : StepExecOutcome :=
  let install : StepResult → List (String × StepResult) := fun r =>
    if stage = Stage.main then setAssoc stepResults0 inp.stepID r else stepResults0
  match isStepEnabled evalBool inp.ifExpr stage with
  | Except.error e =>
      { result := some e
        stepResults := install ⟨StepStatus.failure, StepStatus.failure, []⟩
        processedFiles := [] }
  | Except.ok false =>
      { result := none
        stepResults := install ⟨StepStatus.skipped, StepStatus.skipped, []⟩
        processedFiles := [] }
  | Except.ok true =>
    let afterBody : Except String (StepResult × Option String) :=
      match inp.bodyResult with
      | none => Except.ok (⟨StepStatus.success, StepStatus.success, []⟩, none)
      | some e =>
        match isContinueOnError evalBool inp.rawContinueOnError with
        | Except.error parseErr => Except.error parseErr
        | Except.ok true => Except.ok (⟨StepStatus.failure, StepStatus.success, []⟩, none)
        | Except.ok false => Except.ok (⟨StepStatus.failure, StepStatus.failure, []⟩, some e)
    match afterBody with
    | Except.error parseErr =>
        { result := some parseErr
          stepResults := install ⟨StepStatus.failure, StepStatus.failure, []⟩
          processedFiles := [] }
    | Except.ok (sr, orgerr) =>
      match inp.envProc with
      | some e => { result := some e, stepResults := install sr, processedFiles := [envFileCommand] }
      | none =>
      match inp.stateProc with
      | some e =>
          { result := some e
            stepResults := install sr
            processedFiles := [envFileCommand, stateFileCommand] }
      | none =>
      match inp.outputProc with
      | some e =>
          { result := some e
            stepResults := install sr
            processedFiles := [envFileCommand, stateFileCommand, outputFileCommand] }
      | none =>
      match inp.pathProc with
      | some e =>
          { result := some e
            stepResults := install sr
            processedFiles := [envFileCommand, stateFileCommand, outputFileCommand, pathFileCommand] }
      | none =>
          { result := orgerr
            stepResults := install sr
            processedFiles := [envFileCommand, stateFileCommand, outputFileCommand, pathFileCommand] }

/-! ## Container exit-status boundary (`waitContainer`, step_run.go part 2)

`waitContainer` inspects the awaited container status code and returns
the Go error (`none` = nil = success). -/

/-- The message returned for the neutral exit status 78. -/
def neutralExitMessage : String := "exiting with `NEUTRAL`: 78"

/-- The message returned for every other non-zero exit status. -/
def failureExitMessage (statusCode : Int) : String :=
  "exit with `FAILURE`: " ++ toString statusCode

/-- `waitContainer` status handling (lines 302-308 of the second
document in step_run.go): status 0 returns nil, status 78 returns the
distinct NEUTRAL error, any other status returns the FAILURE error. -/
def waitContainer (statusCode : Int) : Option String :=
  if statusCode = 0 then none
  else if statusCode = 78 then some neutralExitMessage
  else some (failureExitMessage statusCode)

/-! ## Shell script synthesis (pkg/runner/step_run.go part 1)

`RunContext.Parent` is a non-owning back-reference chain; only
`CurrentStep` of the ancestors is consulted by `getScriptName`, so the
chain is embedded as an inductive. -/

/-- The parent chain of a `RunContext`: `base` has `Parent == nil`. -/
inductive RCtx where
  | base (currentStep : String)
  | child (currentStep : String) (parent : RCtx)

/-- `rc.CurrentStep`. -/
def RCtx.currentStep : RCtx → String
  | .base s => s
  | .child s _ => s

/-- The loop of `getScriptName` (step_run.go lines 31-37): walk the
parent chain outward, prefixing `<parent.CurrentStep>-composite-` at
each level. -/
def scriptNameLoop : RCtx → String → String
  | .base _, s => s
  | .child _ p, s => scriptNameLoop p (p.currentStep ++ "-composite-" ++ s)

/-- `getScriptName` (step_run.go lines 31-37). -/
def getScriptName (rc : RCtx) (stepID : String) : String :=
  "workflow/" ++ scriptNameLoop rc stepID

/-- The PowerShell stop-on-error preference line. -/
def pwshPrependLine : String := "$ErrorActionPreference = \x27stop\x27"

/-- The PowerShell last-exit-code propagation line. -/
def pwshAppendLine : String :=
  "if ((Test-Path -LiteralPath variable:/LASTEXITCODE)) \x7b exit $LASTEXITCODE \x7d"

/-- The name/script composition of `setupShellCommand` (step_run.go
lines 44-76): the script body is the interpolated `run` body (the
evaluator is external, so the already-interpolated body is the `run`
parameter); the shell switch selects the extension and the boilerplate,
and the script is always assembled as
`fmt.Sprintf("%s\n%s\n%s", runPrepend, script, runAppend)`.  The final
command-vector split through `shellquote.Split` (lines 78-80) is beyond
this embedding. -/
def setupShellCommand (rc : RCtx) (stepID : String) (shell : String) (run : String) :
    String × String :=
  let name := getScriptName rc stepID
  let p : String × String × String :=
    if shell = "bash" || shell = "sh" then (name ++ ".sh", "", "")
    else if shell = "pwsh" || shell = "powershell" then
      (name ++ ".ps1", pwshPrependLine, pwshAppendLine)
    else if shell = "cmd" then (name ++ ".cmd", "@echo off", "")
    else if shell = "python" then (name ++ ".py", "", "")
    else (name, "", "")
  (p.1, p.2.1 ++ "\n" ++ run ++ "\n" ++ p.2.2)

/-! ## Case-insensitive environment merge (step.go lines 261-303)

`unicode.SimpleFold` is a Go standard library collaborator; it is
embedded for ASCII letters (where each fold orbit has exactly the two
case variants) and as the identity elsewhere — the full Unicode orbit
table lives outside this repository.  The source folds each rune to the
maximum of its orbit by iterating `SimpleFold` until it stops
increasing; for two-element orbits a single conditional step reaches
that maximum. -/

/-- Go `unicode.SimpleFold` restricted to ASCII letters: the next rune
in the fold orbit, wrapping around (so uppercase maps to lowercase and
lowercase back to uppercase); identity for non-letters. -/
def simpleFold (r : Char) : Char :=
  if 'A' ≤ r ∧ r ≤ 'Z' then Char.ofNat (r.toNat + 32)
  else if 'a' ≤ r ∧ r ≤ 'z' then Char.ofNat (r.toNat - 32)
  else r

/-- The rune-folding loop inside `mergeSingleMapIntoMapCaseInsensitive`
(step.go lines 278-286): iterate `SimpleFold` until the next rune does
not increase; with the two-element ASCII orbits one step suffices. -/
def foldRune (r : Char) : Char :=
  let next := simpleFold r
  if next ≤ r then r else next

/-- The key folding `strings.Map(...)` applied to a map key: fold every
rune of the key. -/
def foldKey (k : String) : String := String.mk (k.data.map foldRune)

/-- `mergeSingleMapIntoMapCaseInsensitive` (step.go lines 276-294) as a
pure fold over the entries of `m`, threading the `lookUp` table (fold
class → first-seen spelling) and the target map. -/
def mergeSingleMapIntoMapCaseInsensitive
    (lookUp : List (String × String)) (target : List (String × String))
    (m : List (String × String)) : List (String × String) × List (String × String) :=
  m.foldl
    (fun acc kv =>
      let foldkey := foldKey kv.1
      match acc.1.lookup foldkey with
      | some stored => (acc.1, setAssoc acc.2 stored kv.2)
      | none => (setAssoc acc.1 foldkey kv.1, setAssoc acc.2 kv.1 kv.2))
    (lookUp, target)

/-- `mergeIntoMapCaseInsensitive` (step.go lines 296-303): initialize
the lookup table from the existing target entries, then merge each map
in order. -/
def mergeIntoMapCaseInsensitive (target : List (String × String))
    (maps : List (List (String × String))) : List (String × String) :=
  let init := mergeSingleMapIntoMapCaseInsensitive [] target target
  (maps.foldl (fun acc m => mergeSingleMapIntoMapCaseInsensitive acc.1 acc.2 m) init).2

/-- The bindings contained in one decoded include element (used to state
the characterization of `collectIncludes`). -/
def entryBindings : IncludeEntry → List Binding
  | .entry b => [b]
  | .list bs => bs

/-! ## Helper lemmas -/

theorem lookup_setAssoc {α : Type} (l : List (String × α)) (k : String) (v : α) :
    (setAssoc l k v).lookup k = some v := by
  induction l with
  | nil => simp [setAssoc, List.lookup]
  | cons kv rest ih =>
    obtain ⟨k', v'⟩ := kv
    by_cases h : k' = k
    · simp [setAssoc, h, List.lookup]
    · have hb : (k == k') = false := beq_eq_false_iff_ne.mpr (Ne.symm h)
      simp [setAssoc, h, List.lookup, ih, hb]

theorem length_cartesianProduct (axes : List (String × List MVal)) :
    (cartesianProduct axes).length = (axes.map (fun a => a.2.length)).prod := by
  induction axes with
  | nil => simp [cartesianProduct]
  | cons a rest ih =>
    obtain ⟨k, vs⟩ := a
    simp only [cartesianProduct, List.length_flatMap, List.length_map, List.map_cons,
      List.prod_cons]
    induction vs with
    | nil => simp
    | cons v vtl vih =>
      simp only [List.map_cons, List.sum_cons, vih, List.length_cons, ih,
        Function.comp, List.length_map]
      ring

theorem collectIncludes_eq (m : RawMatrix) :
    collectIncludes m =
      ((m.includes.getD []).flatMap entryBindings).filter (includeKept m) := by
  have aux : ∀ (l : List IncludeEntry) (acc : List Binding),
      l.foldl
        (fun acc e =>
          match e with
          | IncludeEntry.list bs => acc ++ bs.filter (includeKept m)
          | IncludeEntry.entry b => if includeKept m b then acc ++ [b] else acc)
        acc
      = acc ++ (l.flatMap entryBindings).filter (includeKept m) := by
    intro l
    induction l with
    | nil => intro acc; simp
    | cons e rest ih =>
      intro acc
      cases e with
      | entry b =>
        by_cases h : includeKept m b
        · simp [ih, entryBindings, List.filter_cons, h]
        · simp [ih, entryBindings, List.filter_cons, h]
      | list bs =>
        simp [ih, entryBindings, List.filter_append]
  simpa [collectIncludes] using aux (m.includes.getD []) []

theorem excludeEntryLoop_error (m : RawMatrix) (eFix : Binding) :
    ∀ (l : List (String × MVal)), (∃ kv ∈ l, keyInMatrixMapNoInclude m kv.1 = false) →
    ∀ acc, ∃ msg, excludeEntryLoop m eFix l acc = Except.error msg := by
  intro l
  induction l with
  | nil => intro h; exact absurd h (by simp)
  | cons kv rest ih =>
    intro h acc
    by_cases hk : keyInMatrixMapNoInclude m kv.1 = true
    · have hrest : ∃ kv ∈ rest, keyInMatrixMapNoInclude m kv.1 = false := by
        rcases h with ⟨kv', hmem, hbad⟩
        rcases List.mem_cons.mp hmem with heq | hmem'
        · have hkf : keyInMatrixMapNoInclude m kv.1 = false := heq ▸ hbad
          exact absurd hk (by simp [hkf])
        · exact ⟨kv', hmem', hbad⟩
      rcases ih hrest (acc ++ [eFix]) with ⟨msg, hmsg⟩
      exact ⟨msg, by simpa [excludeEntryLoop, hk] using hmsg⟩
    · exact ⟨"The workflow is not valid. Matrix exclude key \x27" ++ kv.1 ++
        "\x27 does not match any key within the matrix", by simp [excludeEntryLoop, hk]⟩

theorem excludeEntryLoop_ok (m : RawMatrix) (eFix : Binding) :
    ∀ (l : List (String × MVal)), (∀ kv ∈ l, keyInMatrixMapNoInclude m kv.1 = true) →
    ∀ acc, ∃ acc', excludeEntryLoop m eFix l acc = Except.ok acc' := by
  intro l
  induction l with
  | nil => intro _ acc; exact ⟨acc, rfl⟩
  | cons kv rest ih =>
    intro h acc
    have hk : keyInMatrixMapNoInclude m kv.1 = true := h kv (by simp)
    rcases ih (fun kv' h' => h kv' (List.mem_cons_of_mem _ h')) (acc ++ [eFix]) with ⟨acc', ha⟩
    exact ⟨acc', by simpa [excludeEntryLoop, hk] using ha⟩

theorem excludesLoop_error (m : RawMatrix) :
    ∀ (l : List Binding), (∃ e ∈ l, ∃ kv ∈ e, keyInMatrixMapNoInclude m kv.1 = false) →
    ∀ acc, ∃ msg, excludesLoop m l acc = Except.error msg := by
  intro l
  induction l with
  | nil => intro h; exact absurd h (by simp)
  | cons e rest ih =>
    intro h acc
    by_cases he : ∃ kv ∈ e, keyInMatrixMapNoInclude m kv.1 = false
    · rcases excludeEntryLoop_error m e e he acc with ⟨msg, hmsg⟩
      exact ⟨msg, by simp [excludesLoop, hmsg]⟩
    · have hgood : ∀ kv ∈ e, keyInMatrixMapNoInclude m kv.1 = true := by
        intro kv hkv
        cases hb : keyInMatrixMapNoInclude m kv.1 with
        | false => exact absurd ⟨kv, hkv, hb⟩ he
        | true => rfl
      rcases excludeEntryLoop_ok m e e hgood acc with ⟨acc', ha⟩
      have hrest : ∃ e' ∈ rest, ∃ kv ∈ e', keyInMatrixMapNoInclude m kv.1 = false := by
        rcases h with ⟨e', hmem, hbad⟩
        rcases List.mem_cons.mp hmem with heq | hmem'
        · exact absurd (heq ▸ hbad) he
        · exact ⟨e', hmem', hbad⟩
      rcases ih hrest acc' with ⟨msg, hmsg⟩
      exact ⟨msg, by simp [excludesLoop, ha, hmsg]⟩

theorem collectExcludes_error (m : RawMatrix)
    (h : ∃ e ∈ m.excludes.getD [], ∃ kv ∈ e, keyInMatrixMapNoInclude m kv.1 = false) :
    ∃ msg, collectExcludes m = Except.error msg :=
  excludesLoop_error m (m.excludes.getD []) h []

theorem GetMatrixes_ok (s : Strategy) (m : RawMatrix) (hm : s.matrix = some m)
    (excl : List Binding) (hex : collectExcludes m = Except.ok excl) :
    GetMatrixes (some s) = Except.ok
      ((cartesianProduct m.axes).filter (fun t => !(excl.any (fun e => commonKeysMatch t e)))
        ++ collectIncludes m) := by
  simp [GetMatrixes, hm, hex]

theorem commonKeysMatch_iff (a b : Binding) :
    commonKeysMatch a b = true ↔ ∀ kv ∈ a, ∀ bv, b.lookup kv.1 = some bv → kv.2 = bv := by
  simp only [commonKeysMatch, List.all_eq_true]
  constructor
  · intro h kv hkv bv hlk
    have hh := h kv hkv
    simp [hlk] at hh
    exact hh
  · intro h kv hkv
    cases hlk : b.lookup kv.1 with
    | none => simp
    | some bv => simpa using h kv hkv bv hlk

/-! ## Claim theorems: matrix expansion -/

/-- C3 counterexample: with base axis `os:[a]` and the include entry
`\x7barch: x\x7d`, whose only key `arch` does not occur in the matrix map,
`GetMatrixes` silently skips the include — the final result is just the
one product tuple, and the include binding is not in it.  The claim
states the include entry would still be appended. -/
theorem C3_counterexample :
    GetMatrixes (some ⟨"", "",
        some ⟨[("os", [MVal.str "a"])],
              some [IncludeEntry.entry [("arch", MVal.str "x")]], none⟩⟩)
      = Except.ok [[("os", MVal.str "a")]] ∧
    [("arch", MVal.str "x")] ∉ [[("os", MVal.str "a")]] := by
  exact ⟨rfl, by decide⟩

/-- C3 (amended): include entries are appended after exclusion filtering
and are never checked against the excludes, but an include entry is kept
only when at least one of its keys occurs in the matrix map (which at
that point still holds the `include`/`exclude` keys themselves); an
include entry none of whose keys occurs there is silently skipped. -/
theorem C3_amended_includes (s : Strategy) (m : RawMatrix)
    (hm : s.matrix = some m) (excl : List Binding)
    (hex : collectExcludes m = Except.ok excl) :
    GetMatrixes (some s) = Except.ok
      ((cartesianProduct m.axes).filter (fun t => !(excl.any (fun e => commonKeysMatch t e)))
        ++ collectIncludes m) ∧
    collectIncludes m = ((m.includes.getD []).flatMap entryBindings).filter (includeKept m) ∧
    (∀ b ∈ collectIncludes m,
      b ∈ (cartesianProduct m.axes).filter (fun t => !(excl.any (fun e => commonKeysMatch t e)))
        ++ collectIncludes m) ∧
    (∀ b, includeKept m b = false → b ∉ collectIncludes m) := by
  refine ⟨GetMatrixes_ok s m hm excl hex, collectIncludes_eq m, ?_, ?_⟩
  · intro b hb
    exact List.mem_append_right _ hb
  · intro b hkept hb
    rw [collectIncludes_eq] at hb
    have := List.of_mem_filter hb
    simp [hkept] at this

/-- C3 amended witness: a concrete instantiation.  With axes `os:[a]`,
the include entry `\x7bos: b\x7d` shares the key `os` with the matrix and is
appended after the filtered product, while `\x7barch: x\x7d` is skipped. -/
theorem C3_amended_includes_witness :
    GetMatrixes (some ⟨"", "",
        some ⟨[("os", [MVal.str "a"])],
              some [IncludeEntry.entry [("os", MVal.str "b")],
                    IncludeEntry.entry [("arch", MVal.str "x")]], none⟩⟩)
      = Except.ok
        ((cartesianProduct [("os", [MVal.str "a"])]).filter
            (fun t => !(([] : List Binding).any (fun e => commonKeysMatch t e)))
          ++ collectIncludes
              ⟨[("os", [MVal.str "a"])],
                some [IncludeEntry.entry [("os", MVal.str "b")],
                      IncludeEntry.entry [("arch", MVal.str "x")]], none⟩) :=
  (C3_amended_includes
    ⟨"", "", some ⟨[("os", [MVal.str "a"])],
      some [IncludeEntry.entry [("os", MVal.str "b")],
            IncludeEntry.entry [("arch", MVal.str "x")]], none⟩⟩
    ⟨[("os", [MVal.str "a"])],
      some [IncludeEntry.entry [("os", MVal.str "b")],
            IncludeEntry.entry [("arch", MVal.str "x")]], none⟩
    rfl [] rfl).1

/-- C4: an `exclude` entry with a key that occurs neither among the axis
keys nor as the residual `exclude` key of the matrix map is a fatal
validation error (`log.Fatalf`, embedded as `Except.error`) aborting the
whole expansion; when every exclude key is valid, the result keeps
exactly the product tuples matched by no exclude entry, where matching
is `commonKeysMatch`: every key of the tuple that is present in the
exclude entry has a `DeepEqual`-equal value (partial-key subset match,
not exact tuple equality). -/
theorem C4_exclude_validation_and_filtering (s : Strategy) (m : RawMatrix)
    (hm : s.matrix = some m) :
    ((∃ e ∈ m.excludes.getD [], ∃ kv ∈ e, keyInMatrixMapNoInclude m kv.1 = false) →
      ∃ msg, GetMatrixes (some s) = Except.error msg) ∧
    (∀ excl, collectExcludes m = Except.ok excl →
      GetMatrixes (some s) = Except.ok
        ((cartesianProduct m.axes).filter (fun t => !(excl.any (fun e => commonKeysMatch t e)))
          ++ collectIncludes m) ∧
      (∀ t, t ∈ (cartesianProduct m.axes).filter
            (fun t => !(excl.any (fun e => commonKeysMatch t e)))
          ↔ t ∈ cartesianProduct m.axes ∧ ∀ e ∈ excl, ¬ commonKeysMatch t e = true)) ∧
    (∀ t e, commonKeysMatch t e = true
      ↔ ∀ kv ∈ t, ∀ bv, e.lookup kv.1 = some bv → kv.2 = bv) := by
  refine ⟨?_, ?_, commonKeysMatch_iff⟩
  · intro h
    rcases collectExcludes_error m h with ⟨msg, hmsg⟩
    exact ⟨msg, by simp [GetMatrixes, hm, hmsg]⟩
  · intro excl hex
    refine ⟨GetMatrixes_ok s m hm excl hex, ?_⟩
    intro t
    simp [List.mem_filter, List.any_eq_true]

/-- C4 witness: with axes `os:[a]`, the exclude entry `\x7bbad: x\x7d` whose
key `bad` is absent makes `GetMatrixes` abort with an error. -/
theorem C4_exclude_validation_and_filtering_witness :
    ∃ msg, GetMatrixes (some ⟨"", "",
        some ⟨[("os", [MVal.str "a"])], none, some [[("bad", MVal.str "x")]]⟩⟩)
      = Except.error msg :=
  (C4_exclude_validation_and_filtering
    ⟨"", "", some ⟨[("os", [MVal.str "a"])], none, some [[("bad", MVal.str "x")]]⟩⟩
    ⟨[("os", [MVal.str "a"])], none, some [[("bad", MVal.str "x")]]⟩ rfl).1
    ⟨[("bad", MVal.str "x")], by decide, ("bad", MVal.str "x"), by decide, by decide⟩

/-- C5: the expansion before exclusion filtering has exactly the product
of the axis cardinalities; a job with no strategy, or a strategy without
a matrix, expands to exactly one empty binding; and the concrete example
with axes `os:[a,b]`, `version:[1,2]` and exclude `\x7bos:a, version:1\x7d`
yields exactly the three claimed bindings (`spec-modelled`:
`common.CartesianProduct` is not under `src/` and is modelled from the
spec). -/
theorem C5_product_cardinality_and_example :
    (∀ axes : List (String × List MVal),
      (cartesianProduct axes).length = (axes.map (fun a => a.2.length)).prod) ∧
    GetMatrixes none = Except.ok [[]] ∧
    (∀ ff mp : String, GetMatrixes (some ⟨ff, mp, none⟩) = Except.ok [[]]) ∧
    (GetMatrixes (some ⟨"", "",
        some ⟨[("os", [MVal.str "a", MVal.str "b"]), ("version", [MVal.num 1, MVal.num 2])],
              none,
              some [[("os", MVal.str "a"), ("version", MVal.num 1)]]⟩⟩)
      = Except.ok
        [[("os", MVal.str "a"), ("version", MVal.num 2)],
         [("os", MVal.str "b"), ("version", MVal.num 1)],
         [("os", MVal.str "b"), ("version", MVal.num 2)]]) := by
  refine ⟨length_cartesianProduct, rfl, fun ff mp => rfl, ?_⟩
  rfl

/-! ## Claim theorems: strategy options and exit-status boundary -/

/-- C7 counterexample: a non-empty `max-parallel` literal that fails to
parse resolves to 0, not to the default 4, because the Go assignment
`maxParallel, err = strconv.Atoi(...)` keeps Atoi's returned value; a
non-empty `fail-fast` literal that fails to parse resolves to `false`,
not to the default `true`. -/
theorem C7_counterexample :
    GetMaxParallel ⟨"", "notanumber", none⟩ = 0 ∧
    GetMaxParallel ⟨"", "notanumber", none⟩ ≠ 4 ∧
    GetFailFast ⟨"notabool", "", none⟩ = false ∧
    GetFailFast ⟨"notabool", "", none⟩ ≠ true := by
  refine ⟨rfl, by decide, rfl, by decide⟩

/-- C7 (amended): the defaults 4 and `true` apply exactly when the
literal is empty; a non-empty literal always resolves to the value the
parser returned alongside its error status (0 for a syntax-invalid
`max-parallel`, `false` for an unrecognized `fail-fast`), and parse
failures are never fatal — both resolvers are total functions that only
log. -/
theorem C7_amended_option_resolution (s : Strategy) :
    (s.maxParallelString = "" → GetMaxParallel s = 4) ∧
    (s.maxParallelString ≠ "" → GetMaxParallel s = (goAtoi s.maxParallelString).1) ∧
    (s.failFastString = "" → GetFailFast s = true) ∧
    (s.failFastString ≠ "" → GetFailFast s = (goParseBool s.failFastString).1) := by
  refine ⟨?_, ?_, ?_, ?_⟩ <;> intro h <;> simp [GetMaxParallel, GetFailFast, h]

/-- C7 amended witness: with the empty literals the defaults resolve,
and with the literal "bogus" the parser value 0 resolves. -/
theorem C7_amended_option_resolution_witness :
    GetMaxParallel ⟨"", "", none⟩ = 4 ∧
    GetMaxParallel ⟨"", "bogus", none⟩ = (goAtoi "bogus").1 :=
  ⟨(C7_amended_option_resolution ⟨"", "", none⟩).1 rfl,
   (C7_amended_option_resolution ⟨"", "bogus", none⟩).2.1 (by decide)⟩

/-- C6: at the `waitContainer` boundary, status 0 yields success (a nil
error), status 78 yields the distinct NEUTRAL completion — a value
different from the success value and from the FAILURE value of every
other status — and every other status yields the FAILURE error carrying
that status. -/
theorem C6_exit_status_contract (s : Int) (h0 : s ≠ 0) (h78 : s ≠ 78) :
    waitContainer 0 = none ∧
    waitContainer 78 = some neutralExitMessage ∧
    waitContainer s = some (failureExitMessage s) ∧
    waitContainer 78 ≠ waitContainer 0 ∧
    waitContainer 78 ≠ waitContainer s := by
  refine ⟨rfl, rfl, by simp [waitContainer, h0, h78], by simp [waitContainer], ?_⟩
  simp only [waitContainer, h0, h78, if_false, if_pos rfl, reduceIte]
  intro hc
  have hdata : neutralExitMessage.data = (failureExitMessage s).data := by
    have := Option.some.inj hc
    exact congrArg String.data this
  have hfail : (failureExitMessage s).data
      = ("exit with `FAILURE`: ").data ++ (toString s).data := by
    simp [failureExitMessage, String.data_append]
  rw [hfail] at hdata
  have h4 : neutralExitMessage.data.take 5 = "exiti".data := by decide
  have h4' : (("exit with `FAILURE`: ").data ++ (toString s).data).take 5
      = "exit ".data := by
    rw [List.take_append_of_le_length (by decide)]
    decide
  rw [hdata, h4'] at h4
  exact absurd h4 (by decide)

/-- C6 witness: instantiated at the failing status 1. -/
theorem C6_exit_status_contract_witness :
    waitContainer 0 = none ∧
    waitContainer 78 = some neutralExitMessage ∧
    waitContainer 1 = some (failureExitMessage 1) ∧
    waitContainer 78 ≠ waitContainer 0 ∧
    waitContainer 78 ≠ waitContainer 1 :=
  C6_exit_status_contract 1 (by decide) (by decide)

/-! ## Claim theorems: environment merge and script synthesis -/

/-- C8: in the case-insensitive merge, keys are compared by the
simple-case-fold key `foldKey`; two successive writes whose keys fold to
the same class leave exactly one stored entry, spelled with the
first-seen casing and holding the last-written value, while writes in
distinct fold classes stay separate; in particular writing `Path=1` then
`PATH=2` leaves exactly `[("Path", "2")]`. -/
theorem C8_case_insensitive_merge (k1 k2 v1 v2 : String) :
    (foldKey k1 = foldKey k2 →
      mergeIntoMapCaseInsensitive [] [[(k1, v1)], [(k2, v2)]] = [(k1, v2)]) ∧
    (foldKey k1 ≠ foldKey k2 →
      mergeIntoMapCaseInsensitive [] [[(k1, v1)], [(k2, v2)]] = [(k1, v1), (k2, v2)]) ∧
    mergeIntoMapCaseInsensitive [] [[("Path", "1")], [("PATH", "2")]] = [("Path", "2")] := by
  refine ⟨?_, ?_, by decide⟩
  · intro h
    simp [mergeIntoMapCaseInsensitive, mergeSingleMapIntoMapCaseInsensitive, ← h,
      List.lookup, setAssoc]
  · intro h
    have hb : (foldKey k2 == foldKey k1) = false := beq_eq_false_iff_ne.mpr (Ne.symm h)
    have hk : ¬ k1 = k2 := fun he => h (he ▸ rfl)
    simp [mergeIntoMapCaseInsensitive, mergeSingleMapIntoMapCaseInsensitive,
      List.lookup, setAssoc, hb, hk]

/-- C8 witness: the `Path=1` then `PATH=2` merge, obtained from the fold
class equality `foldKey "Path" = foldKey "PATH"`. -/
theorem C8_case_insensitive_merge_witness :
    mergeIntoMapCaseInsensitive [] [[("Path", "1")], [("PATH", "2")]] = [("Path", "2")] :=
  (C8_case_insensitive_merge "Path" "PATH" "1" "2").1 (by decide)

/-- C9: the composed script for shell `pwsh` is named with the `.ps1`
extension and its body ends with the last-exit-code propagation line;
for shell `bash` the name takes the `.sh` extension and the body is the
run body with no boilerplate added (only the `%s\n%s\n%s` format
newlines); the script name prefixes `<parent.CurrentStep>-composite-`
once per enclosing parent run context, so a step `build` under a parent
whose current step is `outer` is named `outer-composite-build` under the
`workflow/` directory. -/
theorem C9_shell_script_composition (rc : RCtx) (stepID run : String) :
    (setupShellCommand rc stepID "pwsh" run).1 = getScriptName rc stepID ++ ".ps1" ∧
    (setupShellCommand rc stepID "pwsh" run).2
      = pwshPrependLine ++ "\n" ++ run ++ "\n" ++ pwshAppendLine ∧
    (setupShellCommand rc stepID "bash" run).1 = getScriptName rc stepID ++ ".sh" ∧
    (setupShellCommand rc stepID "bash" run).2 = "" ++ "\n" ++ run ++ "\n" ++ "" ∧
    (∀ cs outer, getScriptName (RCtx.child cs (RCtx.base outer)) stepID
        = "workflow/" ++ outer ++ "-composite-" ++ stepID) ∧
    (∀ cs cp g, getScriptName (RCtx.child cs (RCtx.child cp (RCtx.base g))) stepID
        = "workflow/" ++ g ++ "-composite-" ++ cp ++ "-composite-" ++ stepID) ∧
    getScriptName (RCtx.child "inner" (RCtx.base "outer")) "build"
      = "workflow/outer-composite-build" ∧
    (setupShellCommand (RCtx.child "inner" (RCtx.base "outer")) "build" "pwsh" run).1
      = "workflow/outer-composite-build.ps1" ∧
    (setupShellCommand (RCtx.child "inner" (RCtx.base "outer")) "build" "bash" run).1
      = "workflow/outer-composite-build.sh" := by
  refine ⟨rfl, rfl, rfl, rfl, ?_, ?_, rfl, ?_, ?_⟩
  · intro cs outer
    simp [getScriptName, scriptNameLoop, RCtx.currentStep, String.append_assoc]
  · intro cs cp g
    simp [getScriptName, scriptNameLoop, RCtx.currentStep, String.append_assoc]
  · simp [setupShellCommand, getScriptName, scriptNameLoop, RCtx.currentStep]
  · simp [setupShellCommand, getScriptName, scriptNameLoop, RCtx.currentStep]

/-! ## Claim theorems: step lifecycle -/

/-- C1 counterexample: the body fails with an unsuppressed error
(`continue-on-error` empty, hence false) and env-file processing also
fails; the step's final result is the processing error, not the body's
original error — the early `return err` in the file-command block runs
before the `orgerr` check.  The claim states a processing error never
replaces a genuine body failure. -/
theorem C1_counterexample :
    (runStepExecutor (fun _ _ => Except.ok true) Stage.main
        ⟨"s1", "", "", some "body failed", some "env processing failed", none, none, none⟩
        []).result = some "env processing failed" ∧
    (runStepExecutor (fun _ _ => Except.ok true) Stage.main
        ⟨"s1", "", "", some "body failed", some "env processing failed", none, none, none⟩
        []).result ≠ some "body failed" := by
  exact ⟨rfl, by decide⟩

/-- C1 (amended): after an unsuppressed body failure the side-channel
files are still processed, and the body's original error is the step's
final result whenever that processing succeeds; but an error arising
from side-channel processing is returned as the step's result whether or
not the body had failed — it replaces a genuine body failure. -/
theorem C1_amended_error_priority (f : String → DefaultStatusCheck → Except String Bool)
    (stage : Stage) (inp : StepInputs) (stepResults0 : List (String × StepResult))
    (hcond : isStepEnabled f inp.ifExpr stage = Except.ok true) :
    (∀ e, inp.bodyResult = some e →
      isContinueOnError f inp.rawContinueOnError = Except.ok false →
      inp.envProc = none → inp.stateProc = none → inp.outputProc = none →
      inp.pathProc = none →
      (runStepExecutor f stage inp stepResults0).result = some e ∧
      (runStepExecutor f stage inp stepResults0).processedFiles
        = [envFileCommand, stateFileCommand, outputFileCommand, pathFileCommand]) ∧
    (∀ e pe, inp.bodyResult = some e →
      isContinueOnError f inp.rawContinueOnError = Except.ok false →
      inp.envProc = some pe →
      (runStepExecutor f stage inp stepResults0).result = some pe ∧
      (runStepExecutor f stage inp stepResults0).processedFiles = [envFileCommand]) ∧
    (∀ pe, inp.bodyResult = none → inp.envProc = some pe →
      (runStepExecutor f stage inp stepResults0).result = some pe) := by
  refine ⟨?_, ?_, ?_⟩
  · intro e hbody hcoe henv hstate houtput hpath
    constructor <;>
      simp [runStepExecutor, hcond, hbody, hcoe, henv, hstate, houtput, hpath]
  · intro e pe hbody hcoe henv
    constructor <;> simp [runStepExecutor, hcond, hbody, hcoe, henv]
  · intro pe hbody henv
    simp [runStepExecutor, hcond, hbody, henv]

/-- C1 amended witness: concrete instantiations of the three scenarios
with the always-true evaluator. -/
theorem C1_amended_error_priority_witness :
    (runStepExecutor (fun _ _ => Except.ok true) Stage.main
        ⟨"s1", "", "", some "body failed", none, none, none, none⟩ []).result
      = some "body failed" ∧
    (runStepExecutor (fun _ _ => Except.ok true) Stage.main
        ⟨"s1", "", "", none, some "env processing failed", none, none, none⟩ []).result
      = some "env processing failed" :=
  ⟨((C1_amended_error_priority (fun _ _ => Except.ok true) Stage.main
      ⟨"s1", "", "", some "body failed", none, none, none, none⟩ [] rfl).1
      "body failed" rfl rfl rfl rfl rfl rfl).1,
   (C1_amended_error_priority (fun _ _ => Except.ok true) Stage.main
      ⟨"s1", "", "", none, some "env processing failed", none, none, none⟩ [] rfl).2.2
      "env processing failed" rfl rfl⟩

/-- C2: when the step body fails, an empty or whitespace-only
continue-on-error expression resolves to `false` without consulting the
evaluator (the result is the same for any two evaluators); a non-empty
expression that evaluates true suppresses the error — the invocation
returns success while the recorded StepResult diverges to outcome =
failure, conclusion = success; and a non-empty malformed expression
returns the wrapped parse error immediately, before any side-channel
processing. -/
theorem C2_continue_on_error_policy
    (f g : String → DefaultStatusCheck → Except String Bool)
    (stage : Stage) (inp : StepInputs) (stepResults0 : List (String × StepResult))
    (hcond : isStepEnabled f inp.ifExpr stage = Except.ok true) :
    ((goTrimSpace inp.rawContinueOnError).length = 0 →
      isContinueOnError f inp.rawContinueOnError = Except.ok false ∧
      isContinueOnError f inp.rawContinueOnError
        = isContinueOnError g inp.rawContinueOnError) ∧
    (∀ e, inp.bodyResult = some e →
      isContinueOnError f inp.rawContinueOnError = Except.ok true →
      inp.envProc = none → inp.stateProc = none → inp.outputProc = none →
      inp.pathProc = none →
      (runStepExecutor f stage inp stepResults0).result = none ∧
      (stage = Stage.main →
        (runStepExecutor f stage inp stepResults0).stepResults.lookup inp.stepID
          = some ⟨StepStatus.failure, StepStatus.success, []⟩)) ∧
    (∀ e pe, inp.bodyResult = some e →
      isContinueOnError f inp.rawContinueOnError = Except.error pe →
      (runStepExecutor f stage inp stepResults0).result = some pe ∧
      (runStepExecutor f stage inp stepResults0).processedFiles = []) := by
  refine ⟨?_, ?_, ?_⟩
  · intro htrim
    have he : isContinueOnError f inp.rawContinueOnError = Except.ok false := by
      simp [isContinueOnError, htrim]
    have hg : isContinueOnError g inp.rawContinueOnError = Except.ok false := by
      simp [isContinueOnError, htrim]
    exact ⟨he, he.trans hg.symm⟩
  · intro e hbody hcoe henv hstate houtput hpath
    constructor
    · simp [runStepExecutor, hcond, hbody, hcoe, henv, hstate, houtput, hpath]
    · intro hmain
      subst hmain
      simp [runStepExecutor, hcond, hbody, hcoe, henv, hstate, houtput, hpath,
        lookup_setAssoc]
  · intro e pe hbody hcoe
    constructor <;> simp [runStepExecutor, hcond, hbody, hcoe]

/-- C2 witness: with the always-true evaluator and the always-erroring
evaluator, the whitespace-only expression resolves to false identically,
and a suppressed body failure records outcome = failure with
conclusion = success. -/
theorem C2_continue_on_error_policy_witness :
    (isContinueOnError (fun _ _ => Except.ok true) " " = Except.ok false ∧
      isContinueOnError (fun _ _ => Except.ok true) " "
        = isContinueOnError (fun _ _ => Except.error "E") " ") ∧
    (runStepExecutor (fun _ _ => Except.ok true) Stage.main
        ⟨"s1", "", "true", some "body failed", none, none, none, none⟩ []).result = none :=
  ⟨(C2_continue_on_error_policy (fun _ _ => Except.ok true) (fun _ _ => Except.error "E")
      Stage.main ⟨"s1", "", " ", some "body failed", none, none, none, none⟩ [] rfl).1
      (by decide),
   ((C2_continue_on_error_policy (fun _ _ => Except.ok true) (fun _ _ => Except.ok true)
      Stage.main ⟨"s1", "", "true", some "body failed", none, none, none, none⟩ [] rfl).2.1
      "body failed" rfl rfl rfl rfl rfl rfl).1⟩

theorem runStepExecutor_stepResults (f : String → DefaultStatusCheck → Except String Bool)
    (stage : Stage) (inp : StepInputs) (stepResults0 : List (String × StepResult)) :
    ∃ r, (runStepExecutor f stage inp stepResults0).stepResults
      = if stage = Stage.main then setAssoc stepResults0 inp.stepID r else stepResults0 := by
  unfold runStepExecutor
  repeat' split
  all_goals first
    | exact ⟨_, rfl⟩
    | exact ⟨⟨StepStatus.success, StepStatus.success, []⟩, rfl⟩

/-- C10: for every `(step, stage)` invocation, the `StepResults` map
gains an entry keyed by the step id exactly when the stage is main —
pre/post invocations leave the map unchanged — and the main-stage entry
exists even when the condition evaluates false (marked
outcome = conclusion = skipped) or the condition evaluation errors
(marked outcome = conclusion = failure). -/
theorem C10_step_results_lifecycle (f : String → DefaultStatusCheck → Except String Bool)
    (stage : Stage) (inp : StepInputs) (stepResults0 : List (String × StepResult)) :
    (stage = Stage.main → ∃ r, (runStepExecutor f stage inp stepResults0).stepResults
        = setAssoc stepResults0 inp.stepID r) ∧
    (stage ≠ Stage.main →
      (runStepExecutor f stage inp stepResults0).stepResults = stepResults0) ∧
    (stage = Stage.main → isStepEnabled f inp.ifExpr stage = Except.ok false →
      (runStepExecutor f stage inp stepResults0).stepResults
        = setAssoc stepResults0 inp.stepID ⟨StepStatus.skipped, StepStatus.skipped, []⟩) ∧
    (stage = Stage.main → ∀ msg, isStepEnabled f inp.ifExpr stage = Except.error msg →
      (runStepExecutor f stage inp stepResults0).stepResults
        = setAssoc stepResults0 inp.stepID ⟨StepStatus.failure, StepStatus.failure, []⟩) := by
  refine ⟨?_, ?_, ?_, ?_⟩
  · intro hmain
    rcases runStepExecutor_stepResults f stage inp stepResults0 with ⟨r, hr⟩
    exact ⟨r, by simpa [hmain] using hr⟩
  · intro hother
    rcases runStepExecutor_stepResults f stage inp stepResults0 with ⟨r, hr⟩
    rw [hr]
    simp [hother]
  · intro hmain hc
    subst hmain
    simp [runStepExecutor, hc]
  · intro hmain msg hc
    subst hmain
    simp [runStepExecutor, hc]

/-- C10 witness: a skipped main-stage step still installs its entry, and
a post-stage invocation leaves the map unchanged. -/
theorem C10_step_results_lifecycle_witness :
    (runStepExecutor (fun _ _ => Except.ok false) Stage.main
        ⟨"s1", "", "", none, none, none, none, none⟩ []).stepResults
      = setAssoc [] "s1" ⟨StepStatus.skipped, StepStatus.skipped, []⟩ ∧
    (runStepExecutor (fun _ _ => Except.ok false) Stage.post
        ⟨"s1", "", "", none, none, none, none, none⟩ []).stepResults = [] :=
  ⟨(C10_step_results_lifecycle (fun _ _ => Except.ok false) Stage.main
      ⟨"s1", "", "", none, none, none, none, none⟩ []).2.2.1 rfl rfl,
   (C10_step_results_lifecycle (fun _ _ => Except.ok false) Stage.post
      ⟨"s1", "", "", none, none, none, none, none⟩ []).2.1 (by decide)⟩
